import Mathlib

/-
Verification of the playback and live-metadata subsystem of a tray-based
stream player. The definitions below are shallow embeddings of the functions
in the source file radiotray.py: the pure metadata parser, the JSON polling
fetch, the metadata monitor worker, and the playback controller. Machine
strings are lists of characters; network and process effects are made
explicit as event scripts and event traces.
-/

/-- Single quote character, written via its code point so that it stays out
of string and character literals in this file. -/
def quoteChar : Char := Char.ofNat 39

/-- Titles and raw metadata chunks are modelled as lists of characters. -/
abbrev Title := List Char

/-- Characters that the str.strip call in the source treats as whitespace
(the ASCII whitespace set). -/
def isPySpace (c : Char) : Bool :=
  c == ' ' || c == Char.ofNat 9 || c == Char.ofNat 10 || c == Char.ofNat 11 ||
  c == Char.ofNat 12 || c == Char.ofNat 13

/-- Embedding of str.strip: remove leading and trailing whitespace. -/
def pyStrip (s : List Char) : List Char :=
  ((s.dropWhile isPySpace).reverse.dropWhile isPySpace).reverse

/-- The placeholder values filtered out by parse_metadata: the empty string,
a hyphen, and a semicolon. -/
def placeholders : List (List Char) := [[], ['-'], [';']]

/-- Suffix of the input after the first occurrence of the pattern, or none
when the pattern does not occur. This is the search step of the re.search
calls in parse_metadata. -/
def remAfter (pat : List Char) : List Char → Option (List Char)
  | [] => none
  | c :: cs =>
    if pat.isPrefixOf (c :: cs) then some ((c :: cs).drop pat.length)
    else remAfter pat cs

/-- Capture group of a regular expression of the shape key-then-quote, a run
of non-quote characters, then a closing quote. The leftmost match of such a
pattern sits at the first occurrence of the literal key-plus-quote provided a
closing quote follows somewhere after it, and the capture is the run of
characters up to that first following quote. -/
def capAfterKey (pat : List Char) (s : List Char) : Option (List Char) :=
  match remAfter pat s with
  | none => none
  | some rest =>
    if quoteChar ∈ rest then some (rest.takeWhile (fun c => c != quoteChar))
    else none

/-- The literal preceding the capture in the StreamTitle pattern. -/
def titleKey : List Char := "StreamTitle=".data ++ [quoteChar]

/-- The literal preceding the capture in the StreamUrl pattern. -/
def urlKey : List Char := "StreamUrl=".data ++ [quoteChar]

/-- Raw StreamTitle capture of parse_metadata, before placeholder filtering. -/
def parseTitleRaw (s : List Char) : Option Title := capAfterKey titleKey s

/-- Embedding of parse_metadata: returns the pair of the filtered StreamTitle
capture and the StreamUrl capture. The captured title is returned as matched;
only the membership test on its stripped form decides whether it is kept. -/
def parse_metadata (s : List Char) : Option Title × Option Title :=
  (match parseTitleRaw s with
   | some t => if pyStrip t ∈ placeholders then none else some t
   | none => none,
   capAfterKey urlKey s)

/-- Title component of a parsed metadata chunk. -/
def chunkTitle (m : Title) : Option Title := (parse_metadata m).1

/-- StreamUrl component of a parsed metadata chunk. -/
def chunkUrl (m : Title) : Option Title := (parse_metadata m).2

/-- How the in-band loop of monitor_metadata ended: the stop event was
observed (or the script ran out), the stream ended with an empty length
byte, or a reconnect attempt after a read error failed. -/
inductive EndKind where
  | stopped : EndKind
  | endOfStream : EndKind
  | reconnectFailed : EndKind
deriving DecidableEq

/-- One iteration of the in-band metadata loop, seen from the worker: the
stop event is set, a metadata block is read (none stands for a zero length
byte), the length byte read returns no data, or a read raises one of the
caught connection errors and the subsequent reconnect succeeds or fails. -/
inductive InbandEvent where
  | stop : InbandEvent
  | chunk : Option Title → InbandEvent
  | eos : InbandEvent
  | readErr : Bool → InbandEvent
deriving DecidableEq

/-- Result of the in-band phase of monitor_metadata: the titles emitted (in
order), the final value of the shared current title, the last StreamUrl hint
stored, the number of 5 second backoff sleeps performed, and how the loop
ended. -/
structure InbandResult where
  emissions : List Title
  finalTitle : Option Title
  streamUrlHint : Option Title
  backoffs : Nat
  endKind : EndKind
deriving DecidableEq

/-- Update of the stream_url local on a parsed chunk: stored only when the
captured url is truthy, that is present and non-empty. -/
def hintUpdate (hint : Option Title) (u : Option Title) : Option Title :=
  match u with
  | some x => if x ≠ [] then some x else hint
  | none => hint

/-- Prepend one emitted title to an in-band result. -/
def withEmit (v : Title) (r : InbandResult) : InbandResult :=
  { r with emissions := v :: r.emissions }

/-- Record one more 5 second backoff sleep in an in-band result. -/
def withBackoff (r : InbandResult) : InbandResult :=
  { r with backoffs := r.backoffs + 1 }

/-- Embedding of the in-band while loop of monitor_metadata, driven by a
script of events. A chunk is parsed; the url capture updates the stream_url
local; the title is emitted exactly when it is truthy and differs from the
shared current title, which is then overwritten. A read error sleeps 5
seconds and reconnects: on success the loop continues with all state intact,
on failure the loop breaks. -/
def runInband (cur hint : Option Title) : List InbandEvent → InbandResult
  | [] =>
    { emissions := [], finalTitle := cur, streamUrlHint := hint,
      backoffs := 0, endKind := EndKind.stopped }
  | InbandEvent.stop :: _ =>
    { emissions := [], finalTitle := cur, streamUrlHint := hint,
      backoffs := 0, endKind := EndKind.stopped }
  | InbandEvent.eos :: _ =>
    { emissions := [], finalTitle := cur, streamUrlHint := hint,
      backoffs := 0, endKind := EndKind.endOfStream }
  | InbandEvent.chunk none :: es => runInband cur hint es
  | InbandEvent.chunk (some md) :: es =>
    match chunkTitle md with
    | some v =>
      if v ≠ [] ∧ some v ≠ cur then
        withEmit v (runInband (some v) (hintUpdate hint (chunkUrl md)) es)
      else runInband cur (hintUpdate hint (chunkUrl md)) es
    | none => runInband cur (hintUpdate hint (chunkUrl md)) es
  | InbandEvent.readErr true :: es => withBackoff (runInband cur hint es)
  | InbandEvent.readErr false :: _ =>
    { emissions := [], finalTitle := cur, streamUrlHint := hint,
      backoffs := 1, endKind := EndKind.reconnectFailed }

/-- Embedding of the polling loop of monitor_metadata: each entry is one
fetch result; a fetched title is emitted exactly when it is truthy and
differs from the shared current title. The list ending models the stop
event being observed. -/
def runPoll (cur : Option Title) : List (Option Title) → List Title
  | [] => []
  | some v :: ts =>
    if v ≠ [] ∧ some v ≠ cur then v :: runPoll (some v) ts
    else runPoll cur ts
  | none :: ts => runPoll cur ts

/-- Overall result of one monitor_metadata worker run. -/
structure MonitorResult where
  emissions : List Title
  usedPolling : Bool
  backoffs : Nat
deriving DecidableEq

/-- Embedding of monitor_metadata. When the icy-metaint value is positive
the in-band loop runs on its event script; afterwards, the polling loop runs
exactly when a StreamUrl hint was stored. When the metaint value is zero the
in-band loop is skipped, no hint can have been stored, and the worker ends
at once. -/
def monitor_metadata (metaint : Nat) (evs : List InbandEvent)
    (polls : List (Option Title)) : MonitorResult :=
  if 0 < metaint then
    let r := runInband none none evs
    match r.streamUrlHint with
    | some _ =>
      { emissions := r.emissions ++ runPoll r.finalTitle polls,
        usedPolling := true, backoffs := r.backoffs }
    | none =>
      { emissions := r.emissions, usedPolling := false, backoffs := r.backoffs }
  else
    { emissions := [], usedPolling := false, backoffs := 0 }

/-- The icy-metaint response header value: headers.get with default zero. -/
def metaintFromHeader (h : Option Nat) : Nat := h.getD 0

/-- Sequence of titles the monitor extracts from a script before the in-band
loop ends, used to state the notification policy. -/
def titlesOf : List InbandEvent → List (Option Title)
  | [] => []
  | InbandEvent.stop :: _ => []
  | InbandEvent.eos :: _ => []
  | InbandEvent.chunk none :: es => titlesOf es
  | InbandEvent.chunk (some md) :: es => chunkTitle md :: titlesOf es
  | InbandEvent.readErr true :: es => titlesOf es
  | InbandEvent.readErr false :: _ => []

/-- Notification policy claimed in the specification: a notification is
emitted (with the new value, possibly the no-title value) exactly when the
extracted title differs from the last emitted one, including transitions
into and out of no title. -/
def claimedEmissions (last : Option Title) : List (Option Title) → List (Option Title)
  | [] => []
  | t :: ts => if t ≠ last then t :: claimedEmissions t ts else claimedEmissions last ts

/-- Amended notification policy: a title is emitted exactly when it is
present and differs from the retained last emitted title; an extraction of
no title emits nothing and leaves the retained title unchanged. -/
def amendedEmissions (last : Option Title) : List (Option Title) → List Title
  | [] => []
  | none :: ts => amendedEmissions last ts
  | some v :: ts =>
    if some v ≠ last then v :: amendedEmissions (some v) ts
    else amendedEmissions last ts

/-- JSON values, as decoded by the json module in the source. -/
inductive Json where
  | jnull : Json
  | jbool : Bool → Json
  | jnum : Int → Json
  | jstr : List Char → Json
  | jarr : List Json → Json
  | jobj : List (List Char × Json) → Json

/-- Exceptions that the body of fetch_metadata_from_api can raise while
walking the decoded document: KeyError is in the except clause and caught,
TypeError is not. -/
inductive PyExc where
  | typeErr : PyExc
  | keyErr : PyExc
deriving DecidableEq

/-- Failures of the surrounding request: a requests exception or a JSON
decode error, both caught by fetch_metadata_from_api. -/
inductive ReqErr where
  | requestFailed : ReqErr
  | decodeFailed : ReqErr
deriving DecidableEq

/-- Equality of a JSON value with a given string, as the eq operator
between a decoded element and a string key behaves: true only for the equal
string, false for every value of another type. -/
def isStrEq (k : List Char) : Json → Bool
  | Json.jstr s => s == k
  | _ => false

/-- Substring occurrence test, the membership operator on strings. -/
def subOccurs (pat : List Char) : List Char → Bool
  | [] => pat.isEmpty
  | c :: cs => pat.isPrefixOf (c :: cs) || subOccurs pat cs

/-- The membership operator applied to a string key and a decoded JSON
value: key lookup on an object, element equality on an array, substring
test on a string, and a TypeError on the remaining value kinds. -/
def pyContains (k : List Char) : Json → Except PyExc Bool
  | Json.jobj fs => Except.ok ((fs.find? (fun kv => kv.1 == k)).isSome)
  | Json.jarr xs => Except.ok (xs.any (isStrEq k))
  | Json.jstr s => Except.ok (subOccurs k s)
  | _ => Except.error PyExc.typeErr

/-- Indexing a decoded JSON value with a string key: member lookup on an
object, raising KeyError when absent, and a TypeError on every other value
kind. -/
def pyIndex (k : List Char) : Json → Except PyExc Json
  | Json.jobj fs =>
    match fs.find? (fun kv => kv.1 == k) with
    | some kv => Except.ok kv.2
    | none => Except.error PyExc.keyErr
  | _ => Except.error PyExc.typeErr

/-- Key of the first level of the polled metadata path. -/
def currentKey : List Char := "current".data

/-- Key of the second level of the polled metadata path. -/
def itemKey : List Char := "item".data

/-- Key of the third level of the polled metadata path. -/
def jsonTitleKey : List Char := "title".data

/-- One step of the conditional chain inside fetch_metadata_from_api: a
membership test on the key, short-circuiting to the none result when it
fails, followed by the indexing with that key, whose value feeds the rest
of the chain; exceptions of either operation propagate. -/
def chainStep (k : List Char) (d : Json)
    (next : Json → Except PyExc (Option Json)) : Except PyExc (Option Json) :=
  match pyContains k d with
  | Except.error e => Except.error e
  | Except.ok false => Except.ok none
  | Except.ok true =>
    match pyIndex k d with
    | Except.error e => Except.error e
    | Except.ok v => next v

/-- The conditional chain inside fetch_metadata_from_api: the three
short-circuit membership tests, each followed by the indexing with the same
key, ending in the title value; no return statement runs when a test
fails. -/
def fetchChain (data : Json) : Except PyExc (Option Json) :=
  chainStep currentKey data (fun v1 =>
    chainStep itemKey v1 (fun v2 =>
      chainStep jsonTitleKey v2 (fun v3 => Except.ok (some v3))))

/-- Embedding of fetch_metadata_from_api. The argument is the outcome of the
HTTP GET plus JSON decode. Request and decode failures and a KeyError are
caught and yield the none result; a TypeError raised while walking the
document propagates to the caller. -/
def fetch_metadata_from_api (resp : Except ReqErr Json) : Except PyExc (Option Json) :=
  match resp with
  | Except.error _ => Except.ok none
  | Except.ok data =>
    match fetchChain data with
    | Except.ok r => Except.ok r
    | Except.error PyExc.keyErr => Except.ok none
    | Except.error PyExc.typeErr => Except.error PyExc.typeErr

/-- Lookup of a key in a JSON value when that value is an object. -/
def objLookup (k : List Char) : Json → Option Json
  | Json.jobj fs => (fs.find? (fun kv => kv.1 == k)).map (fun kv => kv.2)
  | _ => none

/-- Whether a JSON value is an object. -/
def isObjJ : Json → Bool
  | Json.jobj _ => true
  | _ => false

/-- The nested path current.item.title of the polled metadata document. -/
def pathTitle (d : Json) : Option Json :=
  (objLookup currentKey d).bind (fun v =>
    (objLookup itemKey v).bind (fun w => objLookup jsonTitleKey w))

/-- The module-level mutable state of the player: the subprocess handle, the
displayed station name, the shared current title, the monitor thread handle,
the stop event flag, and the persisted last station. Process and thread
handles are identified by numbers. -/
structure AppState where
  current_process : Option Nat
  current_station_name : Option String
  current_song_title : Option String
  metadata_thread : Option Nat
  stop_event : Bool
  last_station : Option (String × String)
deriving DecidableEq

/-- Observable actions of the controller functions, in program order: the
terminate call on the subprocess, setting and clearing the stop event, the
bounded join of the monitor thread, the pre-flight HTTP GET, the Popen call
launching the player, the settle sleep, the poll of the process, starting
the monitor thread, persisting the station, and the menu update signal. -/
inductive Ev where
  | termEv : Nat → Ev
  | setStopEv : Ev
  | clearStopEv : Ev
  | joinEv : Ev
  | preflightEv : Ev
  | launchEv : Ev
  | settleEv : Ev
  | pollEv : Ev
  | monitorEv : Ev
  | saveEv : Ev
  | menuEv : Ev
deriving DecidableEq

/-- Environment of one play_station call: the outcome of the pre-flight GET
(none stands for a raised requests exception, a number for the returned
status code), whether the Popen call succeeds (false stands for a
FileNotFoundError), the process id it yields, whether the process has
already exited when polled after the settle sleep, and the thread id of a
newly started monitor. -/
structure PlayEnv where
  preflight : Option Nat
  launchOk : Bool
  pid : Nat
  exitsEarly : Bool
  monId : Nat
deriving DecidableEq

/-- Embedding of stop_current_station: when no process is playing, nothing
happens; otherwise the process is terminated, the stop event set, the
monitor joined with a bounded wait when its handle is live, both handles
cleared, and the stop event cleared again. -/
def stop_current_station (s : AppState) : AppState × List Ev :=
  match s.current_process with
  | none => (s, [])
  | some p =>
    ({ s with current_process := none, metadata_thread := none, stop_event := false },
     [Ev.termEv p, Ev.setStopEv] ++
       (if s.metadata_thread.isSome then [Ev.joinEv] else []) ++ [Ev.clearStopEv])

/-- Embedding of play_station. The current playback is stopped and the
retained title cleared; the pre-flight GET runs next and a raised exception
or a status other than 200 returns at once; then the player is launched (a
FileNotFoundError returns), the settle sleep runs, the process is polled (an
early exit returns with the handle cleared), and finally the stop event is
cleared, the monitor thread started, the station persisted and displayed. -/
def play_station (env : PlayEnv) (s0 : AppState) (url nm : String) : AppState × List Ev :=
  let s1 := (stop_current_station s0).1
  let evStop := (stop_current_station s0).2
  let s2 := { s1 with current_song_title := none }
  match env.preflight with
  | none => (s2, evStop ++ [Ev.preflightEv, Ev.menuEv])
  | some code =>
    if code ≠ 200 then (s2, evStop ++ [Ev.preflightEv, Ev.menuEv])
    else if env.launchOk = false then
      ({ s2 with current_process := none },
       evStop ++ [Ev.preflightEv, Ev.launchEv, Ev.menuEv])
    else if env.exitsEarly then
      ({ s2 with current_process := none },
       evStop ++ [Ev.preflightEv, Ev.launchEv, Ev.settleEv, Ev.pollEv, Ev.menuEv])
    else
      ({ s2 with current_process := some env.pid, stop_event := false,
                 metadata_thread := some env.monId,
                 last_station := some (url, nm),
                 current_station_name := some nm },
       evStop ++ [Ev.preflightEv, Ev.launchEv, Ev.settleEv, Ev.pollEv,
                  Ev.clearStopEv, Ev.monitorEv, Ev.saveEv, Ev.menuEv])

/-- Embedding of toggle_playback: when a process is playing, the playback is
stopped and the displayed station cleared; otherwise the persisted last
station is played when one exists. The menu update fires at the end in
every branch. -/
def toggle_playback (env : PlayEnv) (s : AppState) : AppState × List Ev :=
  if s.current_process.isSome then
    ({ (stop_current_station s).1 with current_station_name := none },
     (stop_current_station s).2 ++ [Ev.menuEv])
  else
    match s.last_station with
    | some (u, n) =>
      ((play_station env s u n).1, (play_station env s u n).2 ++ [Ev.menuEv])
    | none => (s, [Ev.menuEv])

/-- Stop events of the playback controller: those emitted while stopping the
previous playback. -/
def stopEv : Ev → Bool
  | Ev.termEv _ => true
  | Ev.setStopEv => true
  | Ev.joinEv => true
  | Ev.clearStopEv => true
  | _ => false

/-- A state with nothing playing and nothing persisted. -/
def idleS : AppState :=
  { current_process := none, current_station_name := none,
    current_song_title := none, metadata_thread := none,
    stop_event := false, last_station := none }

/-- Environment in which every step of play_station succeeds. -/
def envOk : PlayEnv :=
  { preflight := some 200, launchOk := true, pid := 7,
    exitsEarly := false, monId := 3 }

/-- Metadata chunk carrying the StreamTitle capture A. -/
def chunkA : Title := titleKey ++ ('A' :: quoteChar :: [])

/-- Script in which a title is extracted and then a chunk with no title
match arrives. -/
def c1evs : List InbandEvent :=
  [InbandEvent.chunk (some chunkA), InbandEvent.chunk (some ['x'])]

/-- Script for the witness of the notification policy: a title, a repeat of
the same title, then a different title. -/
def c1wEvs : List InbandEvent :=
  [InbandEvent.chunk (some chunkA), InbandEvent.chunk (some chunkA),
   InbandEvent.chunk (some ['x'])]

/-- Fetch results for the witness of the notification policy. -/
def c1wPolls : List (Option Title) := [some ['P'], some ['P'], none, some ['Q']]

/-- Metadata chunk whose StreamTitle capture is a title padded with
whitespace inside the quotes. -/
def c2input : List Char := titleKey ++ (' ' :: 'A' :: ' ' :: quoteChar :: [])

/-- The raw captured padded title. -/
def c2raw : Title := ' ' :: 'A' :: ' ' :: []

/-- Metadata chunk carrying a StreamUrl capture. -/
def c6urlChunk : Title := urlKey ++ ('u' :: quoteChar :: [])

/-- Script in which a StreamUrl hint is observed and then a read error is
followed by a failed reconnect. -/
def c6evs : List InbandEvent :=
  [InbandEvent.chunk (some c6urlChunk), InbandEvent.readErr false]

/-- Metadata chunk whose StreamTitle value itself contains a single quote:
the capture stops at that quote. -/
def c10trunc : Title :=
  titleKey ++ "It".data ++ (quoteChar :: ("s a song".data ++ [quoteChar]))

/-- Polled document whose current.item.title value is the empty string. -/
def c4ex1 : Json :=
  Json.jobj [(currentKey,
    Json.jobj [(itemKey, Json.jobj [(jsonTitleKey, Json.jstr [])])])]

/-- Polled document that is a bare JSON string containing the first key as
a substring, so the membership test succeeds and the indexing raises. -/
def c4ex2 : Json := Json.jstr ("current".data)

/-- Well-shaped polled document for the fetch witness. -/
def c4wData : Json :=
  Json.jobj [(currentKey,
    Json.jobj [(itemKey, Json.jobj [(jsonTitleKey, Json.jstr ['T'])])])]

/-- Pre-flight environment answering 204, a success status other than 200. -/
def env204 : PlayEnv :=
  { preflight := some 204, launchOk := true, pid := 1,
    exitsEarly := false, monId := 1 }

/-- State in which a station is playing with a monitor, a displayed name
and a retained title. -/
def c5S : AppState :=
  { current_process := some 5, current_station_name := some "S",
    current_song_title := some "X", metadata_thread := some 2,
    stop_event := false, last_station := none }

/-- Environment whose play path fails everywhere; unused fields of calls
that stop rather than play. -/
def dummyEnv : PlayEnv :=
  { preflight := none, launchOk := false, pid := 0,
    exitsEarly := true, monId := 0 }

theorem parseTitle_eq (s : List Char) (v : Title)
    (h : (parse_metadata s).1 = some v) :
    parseTitleRaw s = some v ∧ pyStrip v ∉ placeholders := by
  unfold parse_metadata at h
  cases hr : parseTitleRaw s with
  | none => rw [hr] at h; simp at h
  | some t =>
    rw [hr] at h
    by_cases hp : pyStrip t ∈ placeholders
    · simp [hp] at h
    · simp [hp] at h
      subst h
      exact ⟨rfl, hp⟩

theorem chunkTitle_ne_nil (m : Title) (v : Title)
    (h : chunkTitle m = some v) : v ≠ [] := by
  intro hv
  obtain ⟨hr, hp⟩ := parseTitle_eq m v h
  subst hv
  exact hp (by decide)

theorem isPrefixOf_append_self (l r : List Char) : l.isPrefixOf (l ++ r) = true := by
  induction l with
  | nil => simp
  | cons c cs ih => simp [List.isPrefixOf, ih]

theorem remAfter_append (pat rest : List Char) (hp : pat ≠ []) :
    remAfter pat (pat ++ rest) = some rest := by
  cases pat with
  | nil => exact absurd rfl hp
  | cons c cs =>
    show remAfter (c :: cs) (c :: (cs ++ rest)) = some rest
    unfold remAfter
    have hpre : (c :: cs).isPrefixOf (c :: (cs ++ rest)) = true :=
      isPrefixOf_append_self (c :: cs) rest
    rw [if_pos hpre]
    exact congrArg some (List.drop_left (c :: cs) rest)

theorem takeWhile_stops (x b2 : List Char) (hx : quoteChar ∉ x) :
    (x ++ quoteChar :: b2).takeWhile (fun c => c != quoteChar) = x := by
  induction x with
  | nil => simp [List.takeWhile]
  | cons c cs ih =>
    have hc : c ≠ quoteChar := fun hcc => hx (hcc ▸ List.mem_cons_self c cs)
    have hcb : (c != quoteChar) = true := by simp [hc]
    have hx2 : quoteChar ∉ cs := fun hm => hx (List.mem_cons_of_mem c hm)
    simp [List.cons_append, List.takeWhile_cons, hcb, ih hx2]

theorem capAfterKey_append (x b : List Char) (hx : quoteChar ∉ x) :
    capAfterKey titleKey (titleKey ++ (x ++ quoteChar :: b)) = some x := by
  have h1 := remAfter_append titleKey (x ++ quoteChar :: b) (by decide)
  have h2 : quoteChar ∈ x ++ quoteChar :: b := by simp
  simp [capAfterKey, h1, h2, takeWhile_stops x b hx]

/-- C2 amended: for a chunk whose StreamTitle capture is x (containing no
quote), the parser returns x itself, untrimmed, when the stripped x is not
a placeholder; it returns no title when the stripped x is empty,
whitespace-only, or a placeholder. -/
theorem c2_theorem (x b : List Char) (hx : quoteChar ∉ x) :
    (parse_metadata (titleKey ++ (x ++ quoteChar :: b))).1 =
      if pyStrip x ∈ placeholders then none else some x := by
  unfold parse_metadata parseTitleRaw
  rw [capAfterKey_append x b hx]

theorem c2_witness :
    (parse_metadata (titleKey ++ (['A'] ++ quoteChar :: []))).1 =
      if pyStrip ['A'] ∈ placeholders then none else some ['A'] :=
  c2_theorem ['A'] [] (by decide)

theorem c2_counterexample :
    (parse_metadata c2input).1 = some c2raw
    ∧ pyStrip c2raw = ['A']
    ∧ c2raw ≠ ['A']
    ∧ pyStrip c2raw ∉ placeholders := by decide

theorem capAfterKey_no_quote (pat s v : List Char)
    (h : capAfterKey pat s = some v) : quoteChar ∉ v := by
  cases hr : remAfter pat s with
  | none => simp [capAfterKey, hr] at h
  | some rest =>
    simp only [capAfterKey, hr] at h
    by_cases hq : quoteChar ∈ rest
    · rw [if_pos hq] at h
      cases h
      intro hm
      have := List.mem_takeWhile_imp hm
      simp at this
    · rw [if_neg hq] at h
      exact absurd h (by simp)

/-- C10: any title the parser returns contains no single quote, and a
StreamTitle whose value contains one is truncated at the first quote: the
chunk encoding the title starting It-quote-s a song yields just It. -/
theorem c10_theorem :
    (∀ s v, (parse_metadata s).1 = some v → quoteChar ∉ v)
    ∧ (parse_metadata c10trunc).1 = some ("It".data) := by
  constructor
  · intro s v h
    obtain ⟨hr, _⟩ := parseTitle_eq s v h
    exact capAfterKey_no_quote titleKey s v hr
  · decide

theorem c10_witness : quoteChar ∉ "It".data :=
  c10_theorem.1 c10trunc ("It".data) (by decide)

theorem runPoll_amends (polls : List (Option Title)) :
    ∀ cur, (∀ t ∈ polls, t ≠ some ([] : Title)) →
      runPoll cur polls = amendedEmissions cur polls := by
  induction polls with
  | nil => intro cur h; rfl
  | cons t ts ih =>
    intro cur h
    have hts : ∀ u ∈ ts, u ≠ some ([] : Title) :=
      fun u hu => h u (List.mem_cons_of_mem t hu)
    cases t with
    | none => exact ih cur hts
    | some v =>
      have hv : v ≠ [] := by
        intro hnil
        exact h (some v) (List.mem_cons_self _ _) (by rw [hnil])
      show (if v ≠ [] ∧ some v ≠ cur then v :: runPoll (some v) ts else runPoll cur ts)
          = amendedEmissions cur (some v :: ts)
      rw [show amendedEmissions cur (some v :: ts)
          = if some v ≠ cur then v :: amendedEmissions (some v) ts
            else amendedEmissions cur ts from rfl]
      by_cases hc : some v = cur
      · rw [if_neg (fun hh => hh.2 hc), if_neg (fun hh => hh hc)]
        exact ih cur hts
      · rw [if_pos ⟨hv, hc⟩, if_pos hc]
        exact congrArg (v :: ·) (ih (some v) hts)

theorem runInband_amends (evs : List InbandEvent) :
    ∀ cur hint, (runInband cur hint evs).emissions = amendedEmissions cur (titlesOf evs) := by
  induction evs with
  | nil => intro cur hint; rfl
  | cons e es ih =>
    intro cur hint
    cases e with
    | stop => rfl
    | eos => rfl
    | chunk m =>
      cases m with
      | none => exact ih cur hint
      | some md =>
        rw [show titlesOf (InbandEvent.chunk (some md) :: es)
            = chunkTitle md :: titlesOf es from rfl]
        rw [show runInband cur hint (InbandEvent.chunk (some md) :: es)
            = (match chunkTitle md with
               | some v =>
                 if v ≠ [] ∧ some v ≠ cur then
                   withEmit v (runInband (some v) (hintUpdate hint (chunkUrl md)) es)
                 else runInband cur (hintUpdate hint (chunkUrl md)) es
               | none => runInband cur (hintUpdate hint (chunkUrl md)) es) from rfl]
        cases hct : chunkTitle md with
        | none => exact ih cur (hintUpdate hint (chunkUrl md))
        | some v =>
          have hv := chunkTitle_ne_nil md v hct
          show (if v ≠ [] ∧ some v ≠ cur then
                  withEmit v (runInband (some v) (hintUpdate hint (chunkUrl md)) es)
                else runInband cur (hintUpdate hint (chunkUrl md)) es).emissions
              = amendedEmissions cur (some v :: titlesOf es)
          rw [show amendedEmissions cur (some v :: titlesOf es)
              = if some v ≠ cur then v :: amendedEmissions (some v) (titlesOf es)
                else amendedEmissions cur (titlesOf es) from rfl]
          by_cases hc : some v = cur
          · rw [if_neg (fun hh => hh.2 hc), if_neg (fun hh => hh hc)]
            exact ih cur (hintUpdate hint (chunkUrl md))
          · rw [if_pos ⟨hv, hc⟩, if_pos hc]
            exact congrArg (v :: ·) (ih (some v) (hintUpdate hint (chunkUrl md)))
    | readErr b =>
      cases b with
      | false => rfl
      | true => exact ih cur hint

/-- C1 counterexample: on a script where a title A is extracted and then a
chunk with no title arrives, the monitor emits once, while the claimed
policy, which notifies on every change including the transition into no
title, yields two notifications. -/
theorem c1_counterexample :
    (runInband none none c1evs).emissions = [['A']]
    ∧ claimedEmissions none (titlesOf c1evs) = [some ['A'], none]
    ∧ (runInband none none c1evs).emissions.map some ≠ claimedEmissions none (titlesOf c1evs) := by
  decide

/-- C1 amended: in both the in-band loop and the polling loop, a
notification is emitted exactly when the extracted title is present and
differs from the retained last emitted title; an extraction with no title
emits nothing and leaves the retained title unchanged, so duplicates are
never re-emitted. The polling hypothesis records that a fetch result is
never the empty string title, whose truthiness test would skip it. -/
theorem c1_theorem (cur hint : Option Title) (evs : List InbandEvent)
    (polls : List (Option Title)) (hp : ∀ t ∈ polls, t ≠ some ([] : Title)) :
    (runInband cur hint evs).emissions = amendedEmissions cur (titlesOf evs)
    ∧ runPoll cur polls = amendedEmissions cur polls :=
  ⟨runInband_amends evs cur hint, runPoll_amends polls cur hp⟩

theorem c1_witness :
    (runInband none none c1wEvs).emissions = amendedEmissions none (titlesOf c1wEvs)
    ∧ runPoll none c1wPolls = amendedEmissions none c1wPolls :=
  c1_theorem none none c1wEvs c1wPolls (by decide)

/-- C6 counterexample: after a StreamUrl hint is observed, a transient read
error whose reconnect attempt fails makes the in-band loop break, and the
monitor then escalates to the polling variant and even emits from it. -/
theorem c6_counterexample :
    (runInband none none c6evs).endKind = EndKind.reconnectFailed
    ∧ (monitor_metadata 1 c6evs [some ['P']]).usedPolling = true
    ∧ (monitor_metadata 1 c6evs [some ['P']]).emissions = [['P']] := by
  decide

/-- C6 amended: on a transient read error the monitor performs the 5 second
backoff and reopens the connection; when the reconnect succeeds the in-band
loop continues with emissions, title and hint exactly as without the error
and one extra backoff, the observed title preserved; when the reconnect
fails the in-band loop ends, still preserving the title and hint, and the
monitor escalates to the polling variant exactly when a StreamUrl hint was
observed. -/
theorem c6_theorem (cur hint : Option Title) (evs : List InbandEvent)
    (polls : List (Option Title)) (m : Nat) (hm : 0 < m) :
    (runInband cur hint (InbandEvent.readErr true :: evs)).emissions
      = (runInband cur hint evs).emissions
    ∧ (runInband cur hint (InbandEvent.readErr true :: evs)).finalTitle
      = (runInband cur hint evs).finalTitle
    ∧ (runInband cur hint (InbandEvent.readErr true :: evs)).streamUrlHint
      = (runInband cur hint evs).streamUrlHint
    ∧ (runInband cur hint (InbandEvent.readErr true :: evs)).backoffs
      = (runInband cur hint evs).backoffs + 1
    ∧ (runInband cur hint (InbandEvent.readErr false :: evs)).finalTitle = cur
    ∧ (runInband cur hint (InbandEvent.readErr false :: evs)).streamUrlHint = hint
    ∧ (runInband cur hint (InbandEvent.readErr false :: evs)).endKind
      = EndKind.reconnectFailed
    ∧ (monitor_metadata m evs polls).usedPolling
      = ((runInband none none evs).streamUrlHint).isSome := by
  refine ⟨rfl, rfl, rfl, rfl, rfl, rfl, rfl, ?_⟩
  unfold monitor_metadata
  rw [if_pos hm]
  cases hh : (runInband none none evs).streamUrlHint with
  | none => simp [hh]
  | some u => simp [hh]

theorem c6_witness :
    (monitor_metadata 1 c6evs []).usedPolling
      = ((runInband none none c6evs).streamUrlHint).isSome :=
  (c6_theorem none none c6evs [] 1 (by decide)).2.2.2.2.2.2.2

/-- C8: when the metadata interval header is absent or zero, the in-band
variant is inapplicable, no StreamUrl hint can have been observed, and the
monitor worker terminates at once without polling, without backoffs, and
with zero title notifications. -/
theorem c8_theorem (h : Option Nat) (evs : List InbandEvent)
    (polls : List (Option Title)) (hh : h = none ∨ h = some 0) :
    (monitor_metadata (metaintFromHeader h) evs polls).emissions = []
    ∧ (monitor_metadata (metaintFromHeader h) evs polls).usedPolling = false
    ∧ (monitor_metadata (metaintFromHeader h) evs polls).backoffs = 0 := by
  rcases hh with rfl | rfl <;> exact ⟨rfl, rfl, rfl⟩

theorem c8_witness :
    (monitor_metadata (metaintFromHeader none) c1evs c1wPolls).emissions = []
    ∧ (monitor_metadata (metaintFromHeader none) c1evs c1wPolls).usedPolling = false
    ∧ (monitor_metadata (metaintFromHeader none) c1evs c1wPolls).backoffs = 0 :=
  c8_theorem none c1evs c1wPolls (Or.inl rfl)

theorem isObjJ_elim (d : Json) (h : isObjJ d = true) : ∃ fs, d = Json.jobj fs := by
  cases d with
  | jobj fs => exact ⟨fs, rfl⟩
  | jnull => simp [isObjJ] at h
  | jbool b => simp [isObjJ] at h
  | jnum n => simp [isObjJ] at h
  | jstr s => simp [isObjJ] at h
  | jarr xs => simp [isObjJ] at h

theorem objLookup_none (k : List Char) (fs : List (List Char × Json))
    (hf : fs.find? (fun kv => kv.1 == k) = none) :
    objLookup k (Json.jobj fs) = none := by
  show (fs.find? (fun kv => kv.1 == k)).map (fun kv => kv.2) = none
  rw [hf]
  rfl

theorem objLookup_some (k : List Char) (fs : List (List Char × Json))
    (kv : List Char × Json) (hf : fs.find? (fun kv => kv.1 == k) = some kv) :
    objLookup k (Json.jobj fs) = some kv.2 := by
  show (fs.find? (fun kv => kv.1 == k)).map (fun kv => kv.2) = some kv.2
  rw [hf]
  rfl

theorem chainStep_none (k : List Char) (fs : List (List Char × Json))
    (next : Json → Except PyExc (Option Json))
    (hf : fs.find? (fun kv => kv.1 == k) = none) :
    chainStep k (Json.jobj fs) next = Except.ok none := by
  unfold chainStep
  rw [show pyContains k (Json.jobj fs)
      = Except.ok ((fs.find? (fun kv => kv.1 == k)).isSome) from rfl, hf]
  rfl

theorem chainStep_some (k : List Char) (fs : List (List Char × Json))
    (next : Json → Except PyExc (Option Json)) (kv : List Char × Json)
    (hf : fs.find? (fun kv => kv.1 == k) = some kv) :
    chainStep k (Json.jobj fs) next = next kv.2 := by
  unfold chainStep
  rw [show pyContains k (Json.jobj fs)
      = Except.ok ((fs.find? (fun kv => kv.1 == k)).isSome) from rfl, hf]
  show (match pyIndex k (Json.jobj fs) with
        | Except.error e => Except.error e
        | Except.ok v => next v) = next kv.2
  rw [show pyIndex k (Json.jobj fs)
      = (match fs.find? (fun kv => kv.1 == k) with
         | some kv => Except.ok kv.2
         | none => Except.error PyExc.keyErr) from rfl, hf]

theorem chain3_eq (d : Json) (hobj : isObjJ d = true) :
    chainStep jsonTitleKey d (fun v3 => Except.ok (some v3))
      = Except.ok (objLookup jsonTitleKey d) := by
  obtain ⟨fs, rfl⟩ := isObjJ_elim d hobj
  cases hf : fs.find? (fun kv => kv.1 == jsonTitleKey) with
  | none => rw [chainStep_none _ _ _ hf, objLookup_none _ _ hf]
  | some kv => rw [chainStep_some _ _ _ _ hf, objLookup_some _ _ _ hf]

theorem chain2_eq (d : Json) (hobj : isObjJ d = true)
    (hnext : ∀ w, objLookup itemKey d = some w → isObjJ w = true) :
    chainStep itemKey d (fun v2 =>
        chainStep jsonTitleKey v2 (fun v3 => Except.ok (some v3)))
      = Except.ok ((objLookup itemKey d).bind (fun w => objLookup jsonTitleKey w)) := by
  obtain ⟨fs, rfl⟩ := isObjJ_elim d hobj
  cases hf : fs.find? (fun kv => kv.1 == itemKey) with
  | none => rw [chainStep_none _ _ _ hf, objLookup_none _ _ hf]; rfl
  | some kv =>
    rw [chainStep_some _ _ _ _ hf, objLookup_some _ _ _ hf]
    exact chain3_eq kv.2 (hnext kv.2 (objLookup_some _ _ _ hf))

theorem fetchChain_eq (d : Json) (h1 : isObjJ d = true)
    (h2 : ∀ v, objLookup currentKey d = some v → isObjJ v = true)
    (h3 : ∀ v w, objLookup currentKey d = some v →
            objLookup itemKey v = some w → isObjJ w = true) :
    fetchChain d = Except.ok (pathTitle d) := by
  obtain ⟨fs, rfl⟩ := isObjJ_elim d h1
  unfold fetchChain pathTitle
  cases hf : fs.find? (fun kv => kv.1 == currentKey) with
  | none => rw [chainStep_none _ _ _ hf, objLookup_none _ _ hf]; rfl
  | some kv =>
    rw [chainStep_some _ _ _ _ hf, objLookup_some _ _ _ hf]
    exact chain2_eq kv.2 (h2 kv.2 (objLookup_some _ _ _ hf))
      (fun w hw => h3 kv.2 w (objLookup_some _ _ _ hf) hw)

/-- C4 counterexample: a document whose current.item.title value is the
empty string makes the fetch return that empty value rather than none, and
a document that is a bare string containing the first key as a substring
makes the membership test succeed and the subsequent indexing raise an
uncaught TypeError that interrupts the caller. -/
theorem c4_counterexample :
    fetch_metadata_from_api (Except.ok c4ex1) = Except.ok (some (Json.jstr []))
    ∧ (some (Json.jstr []) : Option Json) ≠ none
    ∧ fetch_metadata_from_api (Except.ok c4ex2) = Except.error PyExc.typeErr := by
  refine ⟨rfl, ?_, rfl⟩
  simp

/-- C4 amended: when the request or the decode fails the fetch returns
none; when the decoded document is object-shaped along the path, the fetch
returns exactly the value at current.item.title whenever that path is
present, even when the value is empty, and none when the path is missing.
On documents that are not object-shaped along the path an uncaught
TypeError can propagate instead. -/
theorem c4_theorem (data : Json) (e : ReqErr) (h1 : isObjJ data = true)
    (h2 : ∀ v, objLookup currentKey data = some v → isObjJ v = true)
    (h3 : ∀ v w, objLookup currentKey data = some v →
            objLookup itemKey v = some w → isObjJ w = true) :
    fetch_metadata_from_api (Except.ok data) = Except.ok (pathTitle data)
    ∧ fetch_metadata_from_api (Except.error e) = Except.ok none := by
  constructor
  · have hch := fetchChain_eq data h1 h2 h3
    show (match fetchChain data with
          | Except.ok r => Except.ok r
          | Except.error PyExc.keyErr => Except.ok none
          | Except.error PyExc.typeErr => Except.error PyExc.typeErr)
        = Except.ok (pathTitle data)
    rw [hch]
  · rfl

theorem c4_witness :
    fetch_metadata_from_api (Except.ok c4wData) = Except.ok (pathTitle c4wData)
    ∧ fetch_metadata_from_api (Except.error ReqErr.requestFailed) = Except.ok none := by
  refine c4_theorem c4wData ReqErr.requestFailed rfl ?_ ?_
  · intro v hv
    have : some (Json.jobj [(itemKey, Json.jobj [(jsonTitleKey, Json.jstr ['T'])])]) = some v := hv
    cases this
    rfl
  · intro v w hv hw
    have h1 : some (Json.jobj [(itemKey, Json.jobj [(jsonTitleKey, Json.jstr ['T'])])]) = some v := hv
    cases h1
    have h2 : some (Json.jobj [(jsonTitleKey, Json.jstr ['T'])]) = some w := hw
    cases h2
    rfl

theorem stop_snd_stopEv (s : AppState) : ∀ e ∈ (stop_current_station s).2, stopEv e = true := by
  cases hp : s.current_process with
  | none => simp [stop_current_station, hp]
  | some p =>
    cases ht : s.metadata_thread <;>
      simp [stop_current_station, hp, ht, stopEv]

theorem stop_not_mem (s : AppState) (e : Ev) (he : stopEv e = false) :
    e ∉ (stop_current_station s).2 := by
  intro hm
  have h := stop_snd_stopEv s e hm
  rw [he] at h
  exact Bool.false_ne_true h

theorem mem_trace_iff (s : AppState) (b : List Ev) (e : Ev) (he : stopEv e = false) :
    e ∈ (stop_current_station s).2 ++ b ↔ e ∈ b := by
  rw [List.mem_append]
  constructor
  · rintro (h | h)
    · exact absurd h (stop_not_mem s e he)
    · exact h
  · exact fun h => Or.inr h

theorem stop_fst_fields (s : AppState) :
    (stop_current_station s).1.current_process = none
    ∧ (stop_current_station s).1.current_song_title = s.current_song_title
    ∧ (stop_current_station s).1.current_station_name = s.current_station_name
    ∧ (stop_current_station s).1.last_station = s.last_station := by
  cases hp : s.current_process <;> simp [stop_current_station, hp]

theorem play_decomp (env : PlayEnv) (s : AppState) (u nm : String) :
    ∃ b, (play_station env s u nm).2 = (stop_current_station s).2 ++ b
      ∧ b.head? = some Ev.preflightEv
      ∧ (∀ p, Ev.termEv p ∉ b)
      ∧ Ev.joinEv ∉ b
      ∧ List.count Ev.launchEv b ≤ 1
      ∧ List.count Ev.monitorEv b ≤ 1
      ∧ (Ev.launchEv ∈ b ↔ env.preflight = some 200)
      ∧ (Ev.monitorEv ∈ b
          ↔ env.preflight = some 200 ∧ env.launchOk = true ∧ env.exitsEarly = false)
      ∧ (env.preflight ≠ some 200 → b = [Ev.preflightEv, Ev.menuEv]) := by
  rcases env with ⟨pf, lok, pid, ex, mid⟩
  cases pf with
  | none =>
    refine ⟨[Ev.preflightEv, Ev.menuEv], rfl, rfl, ?_, ?_, ?_, ?_, ?_, ?_, ?_⟩ <;> simp
  | some code =>
    by_cases h200 : code = 200
    · subst h200
      cases lok with
      | false =>
        refine ⟨[Ev.preflightEv, Ev.launchEv, Ev.menuEv], rfl, rfl, ?_, ?_, ?_, ?_, ?_, ?_, ?_⟩
        · simp
        · simp
        · decide
        · decide
        · simp
        · simp
        · intro h; exact absurd rfl h
      | true =>
        cases ex with
        | true =>
          refine ⟨[Ev.preflightEv, Ev.launchEv, Ev.settleEv, Ev.pollEv, Ev.menuEv],
                  rfl, rfl, ?_, ?_, ?_, ?_, ?_, ?_, ?_⟩
          · simp
          · simp
          · decide
          · decide
          · simp
          · simp
          · intro h; exact absurd rfl h
        | false =>
          refine ⟨[Ev.preflightEv, Ev.launchEv, Ev.settleEv, Ev.pollEv, Ev.clearStopEv,
                   Ev.monitorEv, Ev.saveEv, Ev.menuEv],
                  rfl, rfl, ?_, ?_, ?_, ?_, ?_, ?_, ?_⟩
          · simp
          · simp
          · decide
          · decide
          · simp
          · simp
          · intro h; exact absurd rfl h
    · refine ⟨[Ev.preflightEv, Ev.menuEv], by simp [play_station, h200], rfl,
              ?_, ?_, ?_, ?_, ?_, ?_, ?_⟩
      · simp
      · simp
      · decide
      · decide
      · simp [h200]
      · simp [h200]
      · intro h; rfl

theorem play_state_fields (env : PlayEnv) (s : AppState) (u nm : String) :
    (play_station env s u nm).1.current_song_title = none
    ∧ (env.preflight ≠ some 200 → (play_station env s u nm).1.current_process = none)
    ∧ (env.exitsEarly = true → (play_station env s u nm).1.current_process = none)
    ∧ (env.preflight = some 200 ∧ env.launchOk = true ∧ env.exitsEarly = false →
        (play_station env s u nm).1.current_process = some env.pid
        ∧ (play_station env s u nm).1.metadata_thread = some env.monId
        ∧ (play_station env s u nm).1.last_station = some (u, nm)
        ∧ (play_station env s u nm).1.current_station_name = some nm) := by
  have hsp := (stop_fst_fields s).1
  rcases env with ⟨pf, lok, pid, ex, mid⟩
  cases pf with
  | none =>
    refine ⟨rfl, fun _ => ?_, fun _ => ?_, fun hcond => ?_⟩
    · show ((stop_current_station s).1.current_process) = none
      exact hsp
    · show ((stop_current_station s).1.current_process) = none
      exact hsp
    · exact absurd hcond.1 (by simp)
  | some code =>
    by_cases h200 : code = 200
    · subst h200
      cases lok with
      | false =>
        refine ⟨rfl, fun h => absurd rfl h, fun _ => rfl, fun hcond => ?_⟩
        exact absurd hcond.2.1 (by simp)
      | true =>
        cases ex with
        | true =>
          refine ⟨rfl, fun h => absurd rfl h, fun _ => rfl, fun hcond => ?_⟩
          exact absurd hcond.2.2 (by simp)
        | false =>
          exact ⟨rfl, fun h => absurd rfl h, fun h => absurd h (by simp),
                 fun _ => ⟨rfl, rfl, rfl, rfl⟩⟩
    · have htr : play_station ⟨some code, lok, pid, ex, mid⟩ s u nm
          = ({ (stop_current_station s).1 with current_song_title := none },
             (stop_current_station s).2 ++ [Ev.preflightEv, Ev.menuEv]) := by
        simp [play_station, h200]
      rw [htr]
      refine ⟨rfl, fun _ => hsp, fun _ => hsp, fun hcond => ?_⟩
      exact absurd hcond.1 (by simp [h200])

/-- C3 counterexample: in a run where everything succeeds, the pre-flight
GET is the first action after stopping and precedes the player launch, so
the claimed order, with the launch, the settle wait and the process probe
all before the pre-flight check, is false: the pre-flight check also runs
in runs where no process was ever launched. -/
theorem c3_counterexample :
    (play_station envOk idleS "u" "nm").2
      = [Ev.preflightEv, Ev.launchEv, Ev.settleEv, Ev.pollEv, Ev.clearStopEv,
         Ev.monitorEv, Ev.saveEv, Ev.menuEv]
    ∧ List.indexOf Ev.preflightEv ((play_station envOk idleS "u" "nm").2)
        < List.indexOf Ev.launchEv ((play_station envOk idleS "u" "nm").2) := by
  decide

/-- C3 amended: play_station stops the current playback first, clears the
retained title, then performs the pre-flight check as the first action
after stopping; the player is launched only on a 200 pre-flight response,
the settle wait and the process probe follow, and the monitor is started
and the station persisted exactly when the pre-flight returned 200, the
launch succeeded and the process survived the probe. -/
theorem c3_theorem (env : PlayEnv) (s : AppState) (u nm : String) :
    (∃ a b, (play_station env s u nm).2 = a ++ b
        ∧ (∀ e ∈ a, stopEv e = true) ∧ b.head? = some Ev.preflightEv)
    ∧ (Ev.launchEv ∈ (play_station env s u nm).2 ↔ env.preflight = some 200)
    ∧ (Ev.monitorEv ∈ (play_station env s u nm).2
        ↔ env.preflight = some 200 ∧ env.launchOk = true ∧ env.exitsEarly = false)
    ∧ (play_station env s u nm).1.current_song_title = none
    ∧ (env.exitsEarly = true → (play_station env s u nm).1.current_process = none
        ∧ Ev.monitorEv ∉ (play_station env s u nm).2)
    ∧ (env.preflight = some 200 ∧ env.launchOk = true ∧ env.exitsEarly = false →
        (play_station env s u nm).1.metadata_thread = some env.monId
        ∧ (play_station env s u nm).1.last_station = some (u, nm)) := by
  obtain ⟨b, heq, hhead, hterm, hjoin, hcl, hcm, hliff, hmiff, hfail⟩ := play_decomp env s u nm
  obtain ⟨ht1, ht2, ht3, ht4⟩ := play_state_fields env s u nm
  refine ⟨⟨(stop_current_station s).2, b, heq, stop_snd_stopEv s, hhead⟩, ?_, ?_, ht1, ?_, ?_⟩
  · rw [heq, mem_trace_iff s b Ev.launchEv rfl]
    exact hliff
  · rw [heq, mem_trace_iff s b Ev.monitorEv rfl]
    exact hmiff
  · intro hex
    refine ⟨ht3 hex, ?_⟩
    rw [heq, mem_trace_iff s b Ev.monitorEv rfl]
    intro hm
    exact absurd ((hmiff.mp hm).2.2) (by rw [hex]; simp)
  · intro hcond
    exact ⟨(ht4 hcond).2.1, (ht4 hcond).2.2.1⟩

theorem c3_witness :
    (play_station dummyEnv c5S "u" "nm").1.current_song_title = none :=
  (c3_theorem dummyEnv c5S "u" "nm").2.2.2.1

/-- C7 counterexample: a 204 pre-flight response is a success status, yet
play_station launches nothing, starts no monitor, and leaves no process;
the pre-flight gate accepts exactly the status 200, not every success
status. -/
theorem c7_counterexample :
    (200 ≤ 204 ∧ 204 < 300)
    ∧ Ev.launchEv ∉ (play_station env204 idleS "u" "nm").2
    ∧ Ev.monitorEv ∉ (play_station env204 idleS "u" "nm").2
    ∧ (play_station env204 idleS "u" "nm").1.current_process = none := by
  decide

/-- C7 amended: the pre-flight gate of play_station fails exactly when the
GET raises or returns a status other than 200: the player is launched if
and only if the status is exactly 200, and on any other outcome the call
returns right after the pre-flight with no monitor, no process and no
further action. -/
theorem c7_theorem (env : PlayEnv) (s : AppState) (u nm : String) :
    (Ev.launchEv ∈ (play_station env s u nm).2 ↔ env.preflight = some 200)
    ∧ (env.preflight ≠ some 200 →
        Ev.monitorEv ∉ (play_station env s u nm).2
        ∧ (play_station env s u nm).1.current_process = none
        ∧ (play_station env s u nm).2
            = (stop_current_station s).2 ++ [Ev.preflightEv, Ev.menuEv]) := by
  obtain ⟨b, heq, hhead, hterm, hjoin, hcl, hcm, hliff, hmiff, hfail⟩ := play_decomp env s u nm
  obtain ⟨ht1, ht2, ht3, ht4⟩ := play_state_fields env s u nm
  constructor
  · rw [heq, mem_trace_iff s b Ev.launchEv rfl]
    exact hliff
  · intro hne
    refine ⟨?_, ht2 hne, ?_⟩
    · rw [heq, mem_trace_iff s b Ev.monitorEv rfl]
      intro hm
      exact hne (hmiff.mp hm).1
    · rw [heq, hfail hne]

theorem c7_witness :
    Ev.monitorEv ∉ (play_station dummyEnv idleS "u" "nm").2
    ∧ (play_station dummyEnv idleS "u" "nm").1.current_process = none
    ∧ (play_station dummyEnv idleS "u" "nm").2
        = (stop_current_station idleS).2 ++ [Ev.preflightEv, Ev.menuEv] :=
  (c7_theorem dummyEnv idleS "u" "nm").2 (by decide)

/-- C9: in every play_station call the trace splits into the stopping
events followed by the startup events: every terminate of the old process
and every join of the old monitor precedes the pre-flight and the launch of
the new process, at most one launch and at most one monitor start occur,
and the state holds at most one process and one monitor handle by type. -/
theorem c9_theorem (env : PlayEnv) (s : AppState) (u nm : String) :
    ∃ a b, (play_station env s u nm).2 = a ++ b
      ∧ (∀ p, Ev.termEv p ∉ b) ∧ Ev.joinEv ∉ b ∧ Ev.launchEv ∉ a
      ∧ List.count Ev.launchEv ((play_station env s u nm).2) ≤ 1
      ∧ List.count Ev.monitorEv ((play_station env s u nm).2) ≤ 1 := by
  obtain ⟨b, heq, hhead, hterm, hjoin, hcl, hcm, hliff, hmiff, hfail⟩ := play_decomp env s u nm
  refine ⟨(stop_current_station s).2, b, heq, hterm, hjoin,
          stop_not_mem s Ev.launchEv rfl, ?_, ?_⟩
  · rw [heq, List.count_append,
        List.count_eq_zero.mpr (stop_not_mem s Ev.launchEv rfl)]
    simpa using hcl
  · rw [heq, List.count_append,
        List.count_eq_zero.mpr (stop_not_mem s Ev.monitorEv rfl)]
    simpa using hcm

theorem c9_witness :
    ∃ a b, (play_station envOk c5S "u" "nm").2 = a ++ b
      ∧ (∀ p, Ev.termEv p ∉ b) ∧ Ev.joinEv ∉ b ∧ Ev.launchEv ∉ a
      ∧ List.count Ev.launchEv ((play_station envOk c5S "u" "nm").2) ≤ 1
      ∧ List.count Ev.monitorEv ((play_station envOk c5S "u" "nm").2) ≤ 1 :=
  c9_theorem envOk c5S "u" "nm"

/-- C5 counterexample: stopping playback through the menu toggle, from a
state with a retained title, leaves the title in place: only the process
and monitor handles and the station name are cleared, so the claimed
clearing of the current title is false. -/
theorem c5_counterexample :
    c5S.current_song_title = some "X"
    ∧ (toggle_playback dummyEnv c5S).1.current_process = none
    ∧ (toggle_playback dummyEnv c5S).1.current_station_name = none
    ∧ (toggle_playback dummyEnv c5S).1.current_song_title = some "X" :=
  ⟨rfl, rfl, rfl, rfl⟩

/-- C5 amended: stopping is a no-op when no process is playing; otherwise
the process is terminated, the stop event set and the monitor joined with a
bounded wait when live, the process and monitor handles and the displayed
station are cleared and the stop flag reset, the state becoming idle, but
the retained current title is preserved rather than cleared, until the next
play call clears it. -/
theorem c5_theorem (env : PlayEnv) (s : AppState) (p : Nat)
    (hp : s.current_process = some p) :
    (toggle_playback env s).1.current_process = none
    ∧ (toggle_playback env s).1.metadata_thread = none
    ∧ (toggle_playback env s).1.current_station_name = none
    ∧ (toggle_playback env s).1.stop_event = false
    ∧ (toggle_playback env s).1.current_song_title = s.current_song_title
    ∧ (toggle_playback env s).1.last_station = s.last_station
    ∧ Ev.termEv p ∈ (toggle_playback env s).2
    ∧ (s.metadata_thread.isSome = true → Ev.joinEv ∈ (toggle_playback env s).2)
    ∧ (∀ s2 : AppState, s2.current_process = none → stop_current_station s2 = (s2, [])) := by
  have hh : s.current_process.isSome = true := by rw [hp]; rfl
  have hstop : stop_current_station s
      = ({ s with current_process := none, metadata_thread := none, stop_event := false },
         [Ev.termEv p, Ev.setStopEv]
           ++ (if s.metadata_thread.isSome then [Ev.joinEv] else []) ++ [Ev.clearStopEv]) := by
    unfold stop_current_station
    rw [hp]
  have hres : toggle_playback env s
      = ({ s with current_process := none, metadata_thread := none, stop_event := false,
                  current_station_name := none },
         ([Ev.termEv p, Ev.setStopEv]
           ++ (if s.metadata_thread.isSome then [Ev.joinEv] else []) ++ [Ev.clearStopEv])
           ++ [Ev.menuEv]) := by
    unfold toggle_playback
    rw [if_pos hh, hstop]
  rw [hres]
  refine ⟨rfl, rfl, rfl, rfl, rfl, rfl, ?_, ?_, ?_⟩
  · simp
  · intro hj
    simp [hj]
  · intro s2 h2
    unfold stop_current_station
    rw [h2]

theorem c5_witness :
    (toggle_playback dummyEnv c5S).1.current_process = none
    ∧ (toggle_playback dummyEnv c5S).1.metadata_thread = none
    ∧ (toggle_playback dummyEnv c5S).1.current_station_name = none :=
  ⟨(c5_theorem dummyEnv c5S 5 rfl).1, (c5_theorem dummyEnv c5S 5 rfl).2.1,
   (c5_theorem dummyEnv c5S 5 rfl).2.2.1⟩
